import Mathlib

/-!
Verification development for the data-platform repository: the chat gateway
(`data-platform-agent/app/main.py`), the two HTTP data-tool adapters
(`data-platform-agent/app/tools.py`) and the chart-extraction heuristic of the
dashboard (`data-platform-ui/app.py`).

The Python code is shallowly embedded:
* the two `re.findall` patterns of the UI are embedded as executable
  backtracking matchers over `List Char` (Python's `\s`/`\d` are modelled by
  their ASCII meaning, which covers every input the repository handles);
* the outbound HTTP calls of the adapters are modelled by an oracle
  `net : HttpRequest -> HttpResult`; the list of requests an adapter issued is
  returned alongside its string result, so "exactly one POST" is provable;
* prices are modelled as exact rationals; the concrete two-decimal prices of
  the claims are exactly representable as Python floats, so the metric values
  coincide with the pandas computation.
-/

/-! ## Character classes (ASCII model of Python's regex classes) -/

/-- Python's `\s` class restricted to ASCII: space, tab, newline, carriage
return, vertical tab, form feed. -/
def isSpaceC (c : Char) : Bool :=
  c == ' ' || c == '\t' || c == '\n' || c == '\r' || c == '\x0b' || c == '\x0c'

/-- The character class `[:\s]` used as the date/price separator of pattern A. -/
def sepCharA (c : Char) : Bool := c == ':' || isSpaceC c

/-! ## Generic scanning primitives -/

/-- Greedy span: the longest prefix whose characters satisfy `p`, plus the
remainder.  Models a greedy `X*` whose continuation cannot start with an
`X` character (which is the case at every use site below). -/
def spanP (p : Char → Bool) : List Char → List Char × List Char
  | [] => ([], [])
  | c :: t =>
    if p c then
      let r := spanP p t
      (c :: r.1, r.2)
    else ([], c :: t)

/-- Exactly `n` digits (Python's `\d\x7bn\x7d`): the digits and the remainder. -/
def takeDigits : Nat → List Char → Option (List Char × List Char)
  | 0, s => some ([], s)
  | _ + 1, [] => none
  | n + 1, c :: t =>
    if c.isDigit then
      match takeDigits n t with
      | some (ds, r) => some (c :: ds, r)
      | none => none
    else none

/-- Literal test `startsWithL needle hay`: `needle` starts `hay`. -/
def startsWithL : List Char → List Char → Bool
  | [], _ => true
  | _ :: _, [] => false
  | a :: as, b :: bs => a == b && startsWithL as bs

/-- Python's substring test `needle in hay`. -/
def containsSub (needle : List Char) : List Char → Bool
  | [] => needle.isEmpty
  | c :: t => startsWithL needle (c :: t) || containsSub needle t

/-! ## The two regex shapes of `parse_and_plot` (`data-platform-ui/app.py`)

Pattern A: `(\d{4}-\d{2}-\d{2}(?:\s\d{2}:\d{2}:\d{2})?)[:\s]+(?:\$)?(\d+\.?\d*)`
Pattern B: `(?:\$)?(\d+\.?\d*)\s+(?:on|for|at|as of)\s+(\d{4}-\d{2}-\d{2}(?:\s\d{2}:\d{2}:\d{2})?)`
(the metrics re-parse at app.py:228-229 and app.py:173-174 uses pattern B with
the alternation `on|for|at` only). -/

/-- The date core `\d{4}-\d{2}-\d{2}`: capture and remainder. -/
def parseDateCore (s : List Char) : Option (List Char × List Char) :=
  match takeDigits 4 s with
  | none => none
  | some (y, s1) =>
    match s1 with
    | '-' :: s2 =>
      match takeDigits 2 s2 with
      | none => none
      | some (m, s3) =>
        match s3 with
        | '-' :: s4 =>
          match takeDigits 2 s4 with
          | none => none
          | some (d, s5) => some (y ++ '-' :: m ++ '-' :: d, s5)
        | _ => none
    | _ => none

/-- The optional time tail `\s\d{2}:\d{2}:\d{2}` of the date group. -/
def parseTime (s : List Char) : Option (List Char × List Char) :=
  match s with
  | [] => none
  | c :: s1 =>
    if isSpaceC c then
      match takeDigits 2 s1 with
      | none => none
      | some (h, s2) =>
        match s2 with
        | ':' :: s3 =>
          match takeDigits 2 s3 with
          | none => none
          | some (mi, s4) =>
            match s4 with
            | ':' :: s5 =>
              match takeDigits 2 s5 with
              | none => none
              | some (sec, s6) => some (c :: (h ++ ':' :: mi ++ ':' :: sec), s6)
            | _ => none
        | _ => none
    else none

/-- The price group `\d+\.?\d*`: greedy digits, optional dot, greedy digits.
Greedy maximal munch is faithful here because nothing after the group (in
either pattern) can consume a digit or a dot. -/
def parseNumber (s : List Char) : Option (List Char × List Char) :=
  let r := spanP Char.isDigit s
  if r.1.isEmpty then none
  else
    match r.2 with
    | '.' :: s2 =>
      let r2 := spanP Char.isDigit s2
      some (r.1 ++ '.' :: r2.1, r2.2)
    | _ => some (r.1, r.2)

/-- Pattern A after the date group: `[:\s]+(?:\$)?(\d+\.?\d*)`.  The separator
run is maximal (no separator character is `$` or a digit, so regex
backtracking can never shorten it), and a `$` is consumed only when the
digits behind it match, exactly as the regex engine backtracks. -/
def matchATail (s : List Char) : Option (List Char × List Char) :=
  let r := spanP sepCharA s
  if r.1.isEmpty then none
  else
    match r.2 with
    | '$' :: rest => parseNumber rest
    | other => parseNumber other

/-- One attempt of pattern A at the head of `s`: on success, the
`(date, price)` captures and the remainder after the match.  The optional
time group is greedy: it is taken when it matches and the rest of the
pattern still succeeds, and dropped otherwise (Python backtracking). -/
def matchA (s : List Char) : Option ((List Char × List Char) × List Char) :=
  match parseDateCore s with
  | none => none
  | some (d, s1) =>
    match parseTime s1 with
    | some (t, s2) =>
      match matchATail s2 with
      | some (p, rest) => some ((d ++ t, p), rest)
      | none =>
        match matchATail s1 with
        | some (p, rest) => some ((d, p), rest)
        | none => none
    | none =>
      match matchATail s1 with
      | some (p, rest) => some ((d, p), rest)
      | none => none

/-- The `re.findall` scan for pattern A: leftmost, non-overlapping; on failure the
scan advances one character.  `fuel` bounds the number of steps; every step
consumes at least one character, so `fuel = s.length` is always enough. -/
def scanAFuel : Nat → List Char → List (List Char × List Char)
  | 0, _ => []
  | _ + 1, [] => []
  | fuel + 1, c :: t =>
    match matchA (c :: t) with
    | some (pr, rest) => pr :: scanAFuel fuel rest
    | none => scanAFuel fuel t

/-- All pattern-A matches of `s`, in order: `re.findall(patternA, s)`. -/
def findA (s : List Char) : List (List Char × List Char) :=
  scanAFuel s.length s

/-- After a connector of pattern B: `\s+` then the date group (with its
greedy optional time tail, which ends the pattern). -/
def matchBAfterConn (s : List Char) : Option (List Char × List Char) :=
  let r := spanP isSpaceC s
  if r.1.isEmpty then none
  else
    match parseDateCore r.2 with
    | none => none
    | some (d, s2) =>
      match parseTime s2 with
      | some (t, s3) => some (d ++ t, s3)
      | none => some (d, s2)

/-- Ordered alternation over the connector literals with regex backtracking:
each literal that is a prefix is tried together with its continuation, and
the next literal is tried when the continuation fails. -/
def tryConns : List (List Char) → List Char → Option (List Char × List Char)
  | [], _ => none
  | l :: ls, s =>
    if startsWithL l s then
      match matchBAfterConn (s.drop l.length) with
      | some r => some r
      | none => tryConns ls s
    else tryConns ls s

/-- One attempt of pattern B at the head of `s`: on success the
`(price, date)` captures (in regex capture order) and the remainder. -/
def matchB (conns : List (List Char)) (s : List Char) : Option ((List Char × List Char) × List Char) :=
  let s0 := match s with
    | '$' :: r => r
    | other => other
  match parseNumber s0 with
  | none => none
  | some (p, s1) =>
    let r := spanP isSpaceC s1
    if r.1.isEmpty then none
    else
      match tryConns conns r.2 with
      | none => none
      | some (d, rest) => some ((p, d), rest)

/-- The `re.findall` scan for pattern B. -/
def scanBFuel (conns : List (List Char)) : Nat → List Char → List (List Char × List Char)
  | 0, _ => []
  | _ + 1, [] => []
  | fuel + 1, c :: t =>
    match matchB conns (c :: t) with
    | some (pr, rest) => pr :: scanBFuel conns fuel rest
    | none => scanBFuel conns fuel t

/-- Connector alternation of `parse_and_plot` (app.py:105): `on|for|at|as of`. -/
def connsFull : List (List Char) :=
  ["on".data, "for".data, "at".data, "as of".data]

/-- Connector alternation of the metrics re-parse (app.py:229, app.py:174):
`on|for|at` only. -/
def connsMetrics : List (List Char) :=
  ["on".data, "for".data, "at".data]

/-- All pattern-B matches of `s` with the `parse_and_plot` connectors. -/
def findB (s : List Char) : List (List Char × List Char) :=
  scanBFuel connsFull s.length s

/-- All pattern-B matches of `s` with the metrics-re-parse connectors. -/
def findBMetrics (s : List Char) : List (List Char × List Char) :=
  scanBFuel connsMetrics s.length s

/-- The `(date, price)` pair list computed by `parse_and_plot`
(app.py:101-107): pattern A; if it yields nothing, pattern B with the
`(price, date)` captures swapped. -/
def extractC (s : List Char) : List (List Char × List Char) :=
  let ms := findA s
  if ms.isEmpty then (findB s).map (fun pr => (pr.2, pr.1)) else ms

/-- The `ticks` pair list of the metrics re-parse (app.py:228-229): pattern A,
`or` pattern B restricted to `on|for|at`, swapped. -/
def metricsTicksC (s : List Char) : List (List Char × List Char) :=
  let ms := findA s
  if ms.isEmpty then (findBMetrics s).map (fun pr => (pr.2, pr.1)) else ms

/-! ## Formatting pairs back into answer text ("<date>: $<price>" lines) -/

/-- One `"<date>: $<price>"` line. -/
def fmtLine (pr : List Char × List Char) : List Char :=
  pr.1 ++ ':' :: ' ' :: '$' :: pr.2

/-- Newline-joined `"<date>: $<price>"` lines. -/
def fmtJoin : List (List Char × List Char) → List Char
  | [] => []
  | [pr] => fmtLine pr
  | pr :: ps => fmtLine pr ++ '\n' :: fmtJoin ps

/-- All characters of `l` are digits. -/
def allDigits (l : List Char) : Prop := ∀ c ∈ l, c.isDigit = true

/-- The shape of the optional time tail captured inside a date:
`\s\d{2}:\d{2}:\d{2}`. -/
def TimeShape (t : List Char) : Prop :=
  ∃ c h mi sec, t = c :: (h ++ ':' :: mi ++ ':' :: sec) ∧ isSpaceC c = true ∧
    h.length = 2 ∧ allDigits h ∧ mi.length = 2 ∧ allDigits mi ∧ sec.length = 2 ∧ allDigits sec

/-- The shape of a captured date: `\d{4}-\d{2}-\d{2}` with an optional time
tail. -/
def DateShape (d : List Char) : Prop :=
  ∃ y m dd t, d = y ++ '-' :: m ++ '-' :: dd ++ t ∧
    y.length = 4 ∧ allDigits y ∧ m.length = 2 ∧ allDigits m ∧ dd.length = 2 ∧ allDigits dd ∧
    (t = [] ∨ TimeShape t)

/-- The shape of a captured price: `\d+\.?\d*`. -/
def PriceShape (p : List Char) : Prop :=
  ∃ a t, p = a ++ t ∧ a ≠ [] ∧ allDigits a ∧ (t = [] ∨ ∃ b, t = '.' :: b ∧ allDigits b)

/-- The text following a formatted line: it must not be able to extend a
price capture, i.e. not start with a digit or a dot (it is empty or starts
with a newline at every use). -/
def restOk (r : List Char) : Prop :=
  ∀ c, r.head? = some c → c.isDigit = false ∧ c ≠ '.'

/-! ## String-level wrappers and the chart metrics -/

/-- String-level `parse_and_plot` pair list. -/
def parseAndPlotMatches (text : String) : List (String × String) :=
  (extractC text.data).map (fun pr => (⟨pr.1⟩, ⟨pr.2⟩))

/-- String-level metrics `ticks` pair list. -/
def metricsTicks (text : String) : List (String × String) :=
  (metricsTicksC text.data).map (fun pr => (⟨pr.1⟩, ⟨pr.2⟩))

/-- Lexicographic order on character lists by code point: Python string
comparison, which pandas uses to sort the `Date` column. -/
def lexLe : List Char → List Char → Bool
  | [], _ => true
  | _ :: _, [] => false
  | a :: as, b :: bs =>
    if a < b then true
    else if a = b then lexLe as bs
    else false

/-- Stable insertion into a date-sorted pair list. -/
def insertPair (pr : String × String) : List (String × String) → List (String × String)
  | [] => [pr]
  | q :: qs => if lexLe pr.1.data q.1.data then pr :: q :: qs else q :: insertPair pr qs

/-- Stable ascending sort by the date string: `df.sort_values("Date")`.
(The claims' inputs have pairwise distinct dates, where every sort agrees.) -/
def sortPairs : List (String × String) → List (String × String)
  | [] => []
  | pr :: ps => insertPair pr (sortPairs ps)

/-- Boolean check that a row list is ascending in the date strings. -/
def datesSortedAsc : List (String × String) → Bool
  | [] => true
  | [_] => true
  | a :: b :: rest => lexLe a.1.data b.1.data && datesSortedAsc (b :: rest)

/-- The numeric value of a digit list. -/
def digitsVal (l : List Char) : Nat :=
  l.foldl (fun acc c => acc * 10 + (c.toNat - 48)) 0

/-- The value `pd.to_numeric` gives a captured price, as an exact rational. -/
def priceVal (l : List Char) : ℚ :=
  let r := spanP Char.isDigit l
  match r.2 with
  | '.' :: frac =>
    let f := spanP Char.isDigit frac
    (digitsVal r.1 : ℚ) + (digitsVal f.1 : ℚ) / ((10 : ℚ) ^ f.1.length)
  | _ => (digitsVal r.1 : ℚ)

/-- The sorted numeric rows `df_plot` built by `parse_and_plot`'s caller
(app.py:231-233). -/
def chartRows (text : String) : List (String × ℚ) :=
  (sortPairs (parseAndPlotMatches text)).map (fun pr => (pr.1, priceVal pr.2.data))

/-- Last row's price, `df_plot.iloc[-1]["Price"]` (`0` stands for the
`IndexError` of an empty frame, which the claims never reach). -/
def latestPrice (rows : List (String × ℚ)) : ℚ :=
  match rows.getLast? with
  | some r => r.2
  | none => 0

/-- First row's price, `df_plot.iloc[0]["Price"] if len(df_plot) > 1 else latest` (app.py:236). -/
def firstPrice (rows : List (String × ℚ)) : ℚ :=
  if 1 < rows.length then
    match rows.head? with
    | some r => r.2
    | none => 0
  else latestPrice rows

/-- Maximum price, `df_plot["Price"].max()` (app.py:241). -/
def highPrice (rows : List (String × ℚ)) : ℚ :=
  match rows with
  | [] => 0
  | r :: rs => rs.foldl (fun acc q => max acc q.2) r.2

/-! ## JSON values and the HTTP model for the two adapters (`app/tools.py`) -/

/-- JSON values as delivered by `response.json()`.  Object fields keep the
document order (Python dicts preserve it); keys are assumed distinct, as in
every payload of the two upstreams. -/
inductive Json where
  | jnull : Json
  | jbool : Bool → Json
  | jnum : Int → Json
  | jstr : String → Json
  | jarr : List Json → Json
  | jobj : List (String × Json) → Json
deriving Repr

mutual

/-- Re-serialization `json.dumps` (string escaping elided: no claim input
needs it). -/
def dumpsJ : Json → String
  | .jnull => "null"
  | .jbool b => if b then "true" else "false"
  | .jnum n => toString n
  | .jstr s => "\"" ++ s ++ "\""
  | .jarr xs => "[" ++ dumpsArr xs ++ "]"
  | .jobj kvs => "\x7b" ++ dumpsObj kvs ++ "\x7d"

/-- Comma-joined serialization of array elements. -/
def dumpsArr : List Json → String
  | [] => ""
  | [x] => dumpsJ x
  | x :: xs => dumpsJ x ++ ", " ++ dumpsArr xs

/-- Comma-joined serialization of object fields. -/
def dumpsObj : List (String × Json) → String
  | [] => ""
  | [(k, v)] => "\"" ++ k ++ "\": " ++ dumpsJ v
  | (k, v) :: kvs => "\"" ++ k ++ "\": " ++ dumpsJ v ++ ", " ++ dumpsObj kvs

end

/-- Python dict lookup on a JSON object's field list. -/
def jlookup (kvs : List (String × Json)) (k : String) : Option Json :=
  match kvs with
  | [] => none
  | (k1, v) :: rest => if k1 = k then some v else jlookup rest k

/-- Python f-string interpolation of a JSON value (primitive cases; container
cases approximate `repr`, which no claim exercises). -/
def pyStr : Json → String
  | .jstr s => s
  | .jnum n => toString n
  | .jbool b => if b then "True" else "False"
  | .jnull => "None"
  | j => dumpsJ j

/-- An outbound HTTP request as issued by `requests.post` / `requests.get`. -/
structure HttpRequest where
  method : String
  url : String
  body : Option Json
deriving Repr

/-- What the network returns for a request: a status with a parsed JSON body,
a status with an unparseable body (`response.json()` raises), or a transport
failure (unreachable endpoint, DNS, timeout — `requests` raises a
`RequestException` carrying `msg`). -/
inductive HttpResult where
  | ok : Nat → Json → HttpResult
  | badBody : Nat → String → HttpResult
  | netError : String → HttpResult

/-- Message `str(e)` of the `requests.HTTPError` that `raise_for_status()` raises for
a `4xx/5xx` status: contains the word `Error`, as in requests itself. -/
def httpErrorText (status : Nat) (url : String) : String :=
  toString status ++ " Error for url: " ++ url

/-- Adapter `fetch_daily_data` (tools.py:10-38): builds the tenant- and
periodicity-scoped URL, POSTs the JSON payload once, and returns
`json.dumps(response.json())` on success or an `Error ...` string on any
`RequestException` (transport failure, `raise_for_status`, JSON decode).
Returns the result string together with the list of issued requests. -/
def fetch_daily_data (net : HttpRequest → HttpResult) (ticker start_date end_date : String)
    (tenant_id : Option String) : String × List HttpRequest :=
  let tenant := tenant_id.getD "DEFAULT"
  let url := "http://localhost:8082/api/query/" ++ tenant ++ "/DAILY"
  let payload : Json := .jobj
    [("instrument_id", .jstr ticker), ("start_date", .jstr start_date), ("end_date", .jstr end_date)]
  let req : HttpRequest := ⟨"POST", url, some payload⟩
  let res :=
    match net req with
    | .ok status body =>
      if 400 ≤ status then "Error fetching daily data: " ++ httpErrorText status url
      else dumpsJ body
    | .badBody status msg =>
      if 400 ≤ status then "Error fetching daily data: " ++ httpErrorText status url
      else "Error fetching daily data: " ++ msg
    | .netError msg => "Error fetching daily data: " ++ msg
  (res, [req])

/-- The `data.get('Note', data.get('Error Message', 'Unknown error'))`
diagnostic of `fetch_realtime_data` (tools.py:66). -/
def noteOrErrorMsg (kvs : List (String × Json)) : String :=
  match jlookup kvs "Note" with
  | some v => pyStr v
  | none =>
    match jlookup kvs "Error Message" with
    | some v => pyStr v
    | none => "Unknown error"

/-- The formatting loop of `fetch_realtime_data` (tools.py:73-75): one
`"<timestamp>: $<close>"` line per point; `none` when a point lacks the
`"4. close"` field or is not an object (Python raises mid-loop, discarding
the lines built so far, and the exception is caught at tools.py:79). -/
def closeLines : List (String × Json) → Option (List String)
  | [] => some []
  | (timestamp, values) :: rest =>
    match values with
    | .jobj fields =>
      match jlookup fields "4. close" with
      | some price =>
        match closeLines rest with
        | some ls => some ((timestamp ++ ": $" ++ pyStr price) :: ls)
        | none => none
      | none => none
    | _ => none

/-- The close price of a series point as the specification reads it (used to
state what `closeLines` produces). -/
def closeOf (v : Json) : String :=
  match v with
  | .jobj fields =>
    match jlookup fields "4. close" with
    | some c => pyStr c
    | none => ""
  | _ => ""

/-- Adapter `fetch_realtime_data` (tools.py:41-80): GETs the Alpha Vantage URL once
(API key from configuration, `demo` fallback), extracts the
`"Time Series (<interval>)"` object, formats the first 10 points (Alpha
Vantage orders the series newest-first, so these are the most recent 10) as
`"<timestamp>: $<close>"`, and newline-joins them under a header.  Every
failure — transport, HTTP status, unparseable or non-object payload, missing
`"4. close"` — becomes an `Error ...` string via the catch-all
`except Exception` (tools.py:79); a missing series key becomes the
`Could not find ...` diagnostic surfacing the upstream's `Note` /
`Error Message` field. -/
def fetch_realtime_data (net : HttpRequest → HttpResult) (apiKeyEnv : Option String)
    (ticker : String) (interval : Option String) : String × List HttpRequest :=
  let itv := interval.getD "5min"
  let api_key := apiKeyEnv.getD "demo"
  let url := "https://www.alphavantage.co/query?function=TIME_SERIES_INTRADAY&symbol=" ++ ticker
    ++ "&interval=" ++ itv ++ "&apikey=" ++ api_key
  let req : HttpRequest := ⟨"GET", url, none⟩
  let res :=
    match net req with
    | .netError msg => "Error fetching real-time data: " ++ msg
    | .badBody status msg =>
      if 400 ≤ status then "Error fetching real-time data: " ++ httpErrorText status url
      else "Error fetching real-time data: " ++ msg
    | .ok status data =>
      if 400 ≤ status then "Error fetching real-time data: " ++ httpErrorText status url
      else
        match data with
        | .jobj kvs =>
          match jlookup kvs ("Time Series (" ++ itv ++ ")") with
          | none =>
            "Could not find intraday data for " ++ ticker ++ ". Alpha Vantage Note: "
              ++ noteOrErrorMsg kvs
          | some series =>
            match series with
            | .jobj items =>
              match closeLines (items.take 10) with
              | some ls =>
                String.intercalate "\n"
                  (("Real-time data for " ++ ticker ++ " (" ++ itv ++ " intervals):") :: ls)
              | none => "Error fetching real-time data: badly shaped series point"
            | _ => "Error fetching real-time data: series is not an object"
        | _ => "Error fetching real-time data: payload is not an object"
  (res, [req])

/-! ## The chat gateway (`app/main.py`) -/

/-- The agent invocation result dict, as `chat_endpoint` reads it:
`result.get("output", "")`, `result.get("intermediate_steps", [])` (the tool
name of each recorded action, in order) and `str(result)`. -/
structure AgentResult where
  output : Option String
  intermediateSteps : List String
  stringified : String

/-- The gateway's HTTP reply: `200 {answer, tool_used}` or an
`HTTPException` with a status and a `detail` string. -/
inductive HttpReply where
  | ok : String → Option String → HttpReply
  | httpError : Nat → String → HttpReply
deriving Repr, DecidableEq

/-- The `tool_used` field of a `200` reply (`none` on an error reply). -/
def replyToolUsed : HttpReply → Option String
  | .ok _ tu => tu
  | .httpError _ _ => none

/-- The `answer` field of a `200` reply (`""` on an error reply). -/
def replyAnswer : HttpReply → String
  | .ok a _ => a
  | .httpError _ _ => ""

/-- Gateway `chat_endpoint` (main.py:8-35): the agent invocation either yields a
result dict or raises with message `e`.  On success the answer is
`result.get("output", "")` and `tool_used` comes from the first recorded
intermediate step when the trace is non-empty, else from substring-sniffing
`str(result)` for the two tool names, else `None`.  On an exception the
gateway replies `HTTPException(status_code=500, detail=str(e))`. -/
def chat_endpoint (agentResult : Except String AgentResult) : HttpReply :=
  match agentResult with
  | .error e => .httpError 500 e
  | .ok result =>
    let answer := result.output.getD ""
    let tool_used : Option String :=
      match result.intermediateSteps with
      | t :: _ => some t
      | [] =>
        if containsSub "fetch_realtime_data".data result.stringified.data then
          some "fetch_realtime_data"
        else if containsSub "fetch_daily_data".data result.stringified.data then
          some "fetch_daily_data"
        else none
    .ok answer tool_used

/-! # Theorems

## Scanning primitive lemmas -/

theorem spanP_append_of (p : Char → Bool) (a b : List Char)
    (ha : ∀ c ∈ a, p c = true) (hb : ∀ c, b.head? = some c → p c = false) :
    spanP p (a ++ b) = (a, b) := by
  induction a with
  | nil =>
    simp only [List.nil_append]
    cases b with
    | nil => rfl
    | cons c t =>
      have := hb c rfl
      simp [spanP, this]
  | cons c as ih =>
    have hc : p c = true := ha c (by simp)
    have ih2 := ih (fun d hd => ha d (by simp [hd]))
    simp [spanP, hc, ih2]

theorem spanP_fst_all (p : Char → Bool) (s : List Char) :
    ∀ c ∈ (spanP p s).1, p c = true := by
  induction s with
  | nil => simp [spanP]
  | cons c t ih =>
    by_cases hc : p c = true
    · simpa [spanP, hc] using ih
    · simp at hc
      simp [spanP, hc]

theorem takeDigits_append (a : List Char) (r : List Char)
    (ha : allDigits a) : takeDigits a.length (a ++ r) = some (a, r) := by
  induction a with
  | nil => rfl
  | cons c as ih =>
    have hc : c.isDigit = true := ha c (by simp)
    have ih2 := ih (fun d hd => ha d (by simp [hd]))
    simp [takeDigits, hc, ih2]

theorem takeDigits_spec (n : Nat) (s ds r : List Char)
    (h : takeDigits n s = some (ds, r)) : allDigits ds ∧ ds.length = n := by
  induction n generalizing s ds r with
  | zero =>
    simp only [takeDigits, Option.some.injEq, Prod.mk.injEq] at h
    obtain ⟨rfl, rfl⟩ := h
    exact ⟨by simp [allDigits], rfl⟩
  | succ n ih =>
    cases s with
    | nil => simp [takeDigits] at h
    | cons c t =>
      simp only [takeDigits] at h
      split at h
      · split at h
        · rename_i hc ds0 r0 htd
          simp only [Option.some.injEq, Prod.mk.injEq] at h
          obtain ⟨rfl, rfl⟩ := h
          obtain ⟨hall, hlen⟩ := ih t ds0 r0 htd
          refine ⟨?_, by simp [hlen]⟩
          intro d hd
          rcases List.mem_cons.mp hd with rfl | hd
          · assumption
          · exact hall d hd
        · exact absurd h (by simp)
      · exact absurd h (by simp)

theorem parseDateCore_append (y m d r : List Char)
    (hy : allDigits y) (hylen : y.length = 4)
    (hm : allDigits m) (hmlen : m.length = 2)
    (hd : allDigits d) (hdlen : d.length = 2) :
    parseDateCore (y ++ '-' :: (m ++ '-' :: (d ++ r))) = some (y ++ '-' :: m ++ '-' :: d, r) := by
  have h1 : takeDigits 4 (y ++ '-' :: (m ++ '-' :: (d ++ r)))
      = some (y, '-' :: (m ++ '-' :: (d ++ r))) := by
    rw [← hylen]; exact takeDigits_append y _ hy
  have h2 : takeDigits 2 (m ++ '-' :: (d ++ r)) = some (m, '-' :: (d ++ r)) := by
    rw [← hmlen]; exact takeDigits_append m _ hm
  have h3 : takeDigits 2 (d ++ r) = some (d, r) := by
    rw [← hdlen]; exact takeDigits_append d _ hd
  simp [parseDateCore, h1, h2, h3]

theorem parseDateCore_shape (s dc r : List Char) (h : parseDateCore s = some (dc, r)) :
    ∃ y m d, dc = y ++ '-' :: m ++ '-' :: d ∧
      y.length = 4 ∧ allDigits y ∧ m.length = 2 ∧ allDigits m ∧ d.length = 2 ∧ allDigits d := by
  unfold parseDateCore at h
  split at h
  · exact absurd h (by simp)
  · rename_i y s1 h1
    split at h
    · rename_i s2
      split at h
      · exact absurd h (by simp)
      · rename_i m s3 h2
        split at h
        · rename_i s4
          split at h
          · exact absurd h (by simp)
          · rename_i d s5 h3
            simp only [Option.some.injEq, Prod.mk.injEq] at h
            obtain ⟨hy, hylen⟩ := takeDigits_spec 4 s y _ h1
            obtain ⟨hm, hmlen⟩ := takeDigits_spec 2 s2 m _ h2
            obtain ⟨hdall, hdlen⟩ := takeDigits_spec 2 s4 d _ h3
            exact ⟨y, m, d, h.1.symm, hylen, hy, hmlen, hm, hdlen, hdall⟩
        · exact absurd h (by simp)
    · exact absurd h (by simp)

theorem parseTime_append (c : Char) (h mi sec r : List Char)
    (hc : isSpaceC c = true)
    (hh : allDigits h) (hhlen : h.length = 2)
    (hmi : allDigits mi) (hmilen : mi.length = 2)
    (hsec : allDigits sec) (hseclen : sec.length = 2) :
    parseTime (c :: (h ++ ':' :: (mi ++ ':' :: (sec ++ r))))
      = some (c :: (h ++ ':' :: mi ++ ':' :: sec), r) := by
  have e1 : takeDigits 2 (h ++ ':' :: (mi ++ ':' :: (sec ++ r)))
      = some (h, ':' :: (mi ++ ':' :: (sec ++ r))) := by
    rw [← hhlen]; exact takeDigits_append h _ hh
  have e2 : takeDigits 2 (mi ++ ':' :: (sec ++ r)) = some (mi, ':' :: (sec ++ r)) := by
    rw [← hmilen]; exact takeDigits_append mi _ hmi
  have e3 : takeDigits 2 (sec ++ r) = some (sec, r) := by
    rw [← hseclen]; exact takeDigits_append sec _ hsec
  simp [parseTime, hc, e1, e2, e3]

theorem parseTime_nospace (c : Char) (s : List Char) (hc : isSpaceC c = false) :
    parseTime (c :: s) = none := by
  simp [parseTime, hc]

theorem parseTime_shape (s t r : List Char) (h : parseTime s = some (t, r)) : TimeShape t := by
  cases s with
  | nil => simp [parseTime] at h
  | cons c s1 =>
    simp only [parseTime] at h
    split at h
    · rename_i hc
      split at h
      · exact absurd h (by simp)
      · rename_i hh s2 h1
        split at h
        · rename_i s3
          split at h
          · exact absurd h (by simp)
          · rename_i mi s4 h2
            split at h
            · rename_i s5
              split at h
              · exact absurd h (by simp)
              · rename_i sec s6 h3
                simp only [Option.some.injEq, Prod.mk.injEq] at h
                obtain ⟨hd1, hd2⟩ := takeDigits_spec 2 s1 hh _ h1
                obtain ⟨hd3, hd4⟩ := takeDigits_spec 2 s3 mi _ h2
                obtain ⟨hd5, hd6⟩ := takeDigits_spec 2 s5 sec _ h3
                exact ⟨c, hh, mi, sec, by simp [h.1.symm], hc, hd2, hd1, hd4, hd3, hd6, hd5⟩
            · exact absurd h (by simp)
        · exact absurd h (by simp)
    · exact absurd h (by simp)

theorem parseNumber_append_of (a r : List Char) (ha : a ≠ []) (had : allDigits a)
    (hr : ∀ c, r.head? = some c → c.isDigit = false)
    (hrd : ∀ c, r.head? = some c → c ≠ '.') :
    parseNumber (a ++ r) = some (a, r) := by
  have hs : spanP Char.isDigit (a ++ r) = (a, r) := spanP_append_of _ a r had hr
  have hne : a.isEmpty = false := by cases a with | nil => exact absurd rfl ha | cons x xs => rfl
  simp only [parseNumber, hs, hne, Bool.false_eq_true, if_false]
  cases r with
  | nil => rfl
  | cons c rt =>
    have hcd : c ≠ '.' := hrd c rfl
    split
    · rename_i s2 heq
      injection heq with h1 h2
      exact absurd h1 hcd
    · rfl

theorem parseNumber_append_dot (a b r : List Char) (ha : a ≠ []) (had : allDigits a)
    (hb : allDigits b) (hr : ∀ c, r.head? = some c → c.isDigit = false) :
    parseNumber (a ++ '.' :: (b ++ r)) = some (a ++ '.' :: b, r) := by
  have hs : spanP Char.isDigit (a ++ '.' :: (b ++ r)) = (a, '.' :: (b ++ r)) := by
    refine spanP_append_of _ a _ had ?_
    intro c hc
    simp only [List.head?_cons, Option.some.injEq] at hc
    subst hc; decide
  have hs2 : spanP Char.isDigit (b ++ r) = (b, r) := spanP_append_of _ b r hb hr
  have hne : a.isEmpty = false := by cases a with | nil => exact absurd rfl ha | cons x xs => rfl
  simp [parseNumber, hs, hs2, hne]

theorem parseNumber_of_shape (p r : List Char) (hp : PriceShape p) (hr : restOk r) :
    parseNumber (p ++ r) = some (p, r) := by
  obtain ⟨a, t, rfl, ha, had, ht⟩ := hp
  rcases ht with rfl | ⟨b, rfl, hb⟩
  · rw [List.append_nil]
    exact parseNumber_append_of a r ha had
      (fun c hc => (hr c hc).1) (fun c hc => (hr c hc).2)
  · rw [List.append_assoc, List.cons_append]
    exact parseNumber_append_dot a b r ha had hb (fun c hc => (hr c hc).1)

theorem parseNumber_shape (s p r : List Char) (h : parseNumber s = some (p, r)) :
    PriceShape p := by
  simp only [parseNumber] at h
  split at h
  · exact absurd h (by simp)
  · rename_i hne
    have hfst : ∀ c ∈ (spanP Char.isDigit s).1, c.isDigit = true := spanP_fst_all _ s
    have hnonnil : (spanP Char.isDigit s).1 ≠ [] := by
      intro hcon
      rw [hcon] at hne
      exact hne rfl
    split at h
    · rename_i s2 heq
      simp only [Option.some.injEq, Prod.mk.injEq] at h
      refine ⟨(spanP Char.isDigit s).1, '.' :: (spanP Char.isDigit s2).1, h.1.symm, hnonnil, hfst, ?_⟩
      exact Or.inr ⟨(spanP Char.isDigit s2).1, rfl, spanP_fst_all _ s2⟩
    · simp only [Option.some.injEq, Prod.mk.injEq] at h
      exact ⟨(spanP Char.isDigit s).1, [], by simp [h.1.symm], hnonnil, hfst, Or.inl rfl⟩

theorem matchATail_line (p r : List Char) (hp : PriceShape p) (hr : restOk r) :
    matchATail (':' :: ' ' :: '$' :: (p ++ r)) = some (p, r) := by
  have hs : spanP sepCharA (':' :: ' ' :: '$' :: (p ++ r)) = ([':', ' '], '$' :: (p ++ r)) := by
    have hstep := spanP_append_of sepCharA [':', ' '] ('$' :: (p ++ r))
      (by decide)
      (by intro c hc; simp only [List.head?_cons, Option.some.injEq] at hc; subst hc; decide)
    simpa using hstep
  simp only [matchATail, hs]
  simpa using parseNumber_of_shape p r hp hr

theorem matchATail_shape (s p r : List Char) (h : matchATail s = some (p, r)) :
    PriceShape p := by
  simp only [matchATail] at h
  split at h
  · exact absurd h (by simp)
  · split at h
    · exact parseNumber_shape _ p r h
    · exact parseNumber_shape _ p r h

theorem matchA_line (d p rest : List Char) (hd : DateShape d) (hp : PriceShape p)
    (hrest : restOk rest) :
    matchA (d ++ ':' :: ' ' :: '$' :: (p ++ rest)) = some ((d, p), rest) := by
  obtain ⟨y, m, dd, t, rfl, hylen, hy, hmlen, hm, hddlen, hdd, htime⟩ := hd
  have htail := matchATail_line p rest hp hrest
  rcases htime with rfl | ⟨c, hh, mi, sec, rfl, hc, hhlen, hhd, hmilen, hmid, hseclen, hsecd⟩
  · have hlist : (y ++ '-' :: m ++ '-' :: dd ++ ([] : List Char)) ++ ':' :: ' ' :: '$' :: (p ++ rest)
        = y ++ '-' :: (m ++ '-' :: (dd ++ (':' :: ' ' :: '$' :: (p ++ rest)))) := by
      simp
    rw [hlist]
    have hdc := parseDateCore_append y m dd (':' :: ' ' :: '$' :: (p ++ rest))
      hy hylen hm hmlen hdd hddlen
    have hpt : parseTime (':' :: ' ' :: '$' :: (p ++ rest)) = none :=
      parseTime_nospace ':' _ (by decide)
    simp [matchA, hdc, hpt, htail]
  · have hlist : (y ++ '-' :: m ++ '-' :: dd ++ (c :: (hh ++ ':' :: mi ++ ':' :: sec)))
        ++ ':' :: ' ' :: '$' :: (p ++ rest)
        = y ++ '-' :: (m ++ '-' :: (dd ++
            (c :: (hh ++ ':' :: (mi ++ ':' :: (sec ++ (':' :: ' ' :: '$' :: (p ++ rest)))))))) := by
      simp
    rw [hlist]
    have hdc := parseDateCore_append y m dd
      (c :: (hh ++ ':' :: (mi ++ ':' :: (sec ++ (':' :: ' ' :: '$' :: (p ++ rest))))))
      hy hylen hm hmlen hdd hddlen
    have hpt := parseTime_append c hh mi sec (':' :: ' ' :: '$' :: (p ++ rest))
      hc hhd hhlen hmid hmilen hsecd hseclen
    simp [matchA, hdc, hpt, htail]

theorem matchA_shape (s d p r : List Char) (h : matchA s = some ((d, p), r)) :
    DateShape d ∧ PriceShape p := by
  simp only [matchA] at h
  split at h
  · exact absurd h (by simp)
  · rename_i dc s1 h1
    obtain ⟨y, m, dd, hdc, hylen, hy, hmlen, hm, hddlen, hdd⟩ := parseDateCore_shape s dc s1 h1
    split at h
    · rename_i t s2 h2
      have htime := parseTime_shape s1 t s2 h2
      split at h
      · rename_i p0 rest0 h3
        simp only [Option.some.injEq, Prod.mk.injEq] at h
        obtain ⟨⟨hdate, hprice⟩, hrest⟩ := h
        subst hdate; subst hprice
        refine ⟨⟨y, m, dd, t, by simp [hdc, List.append_assoc], hylen, hy, hmlen, hm, hddlen, hdd,
          Or.inr htime⟩, matchATail_shape s2 _ _ h3⟩
      · split at h
        · rename_i p0 rest0 h4
          simp only [Option.some.injEq, Prod.mk.injEq] at h
          obtain ⟨⟨hdate, hprice⟩, hrest⟩ := h
          subst hdate; subst hprice
          refine ⟨⟨y, m, dd, [], by simp [hdc], hylen, hy, hmlen, hm, hddlen, hdd, Or.inl rfl⟩,
            matchATail_shape s1 _ _ h4⟩
        · exact absurd h (by simp)
    · split at h
      · rename_i p0 rest0 h4
        simp only [Option.some.injEq, Prod.mk.injEq] at h
        obtain ⟨⟨hdate, hprice⟩, hrest⟩ := h
        subst hdate; subst hprice
        refine ⟨⟨y, m, dd, [], by simp [hdc], hylen, hy, hmlen, hm, hddlen, hdd, Or.inl rfl⟩,
          matchATail_shape s1 _ _ h4⟩
      · exact absurd h (by simp)

theorem matchA_notdigit (c : Char) (s : List Char) (hc : c.isDigit = false) :
    matchA (c :: s) = none := by
  have h : parseDateCore (c :: s) = none := by
    simp [parseDateCore, takeDigits, hc]
  simp [matchA, h]

theorem scanAFuel_nil (fuel : Nat) : scanAFuel fuel [] = [] := by
  cases fuel <;> rfl

theorem scanAFuel_cons_of_match (fuel : Nat) (s rest : List Char) (pr : List Char × List Char)
    (hs : s ≠ []) (hm : matchA s = some (pr, rest)) (hf : 1 ≤ fuel) :
    scanAFuel fuel s = pr :: scanAFuel (fuel - 1) rest := by
  obtain ⟨c, t, rfl⟩ : ∃ c t, s = c :: t := by
    cases s with
    | nil => exact absurd rfl hs
    | cons c t => exact ⟨c, t, rfl⟩
  obtain ⟨f, rfl⟩ : ∃ f, fuel = f + 1 := ⟨fuel - 1, by omega⟩
  simp [scanAFuel, hm]

theorem scanAFuel_step_none (fuel : Nat) (c : Char) (t : List Char)
    (hm : matchA (c :: t) = none) (hf : 1 ≤ fuel) :
    scanAFuel fuel (c :: t) = scanAFuel (fuel - 1) t := by
  obtain ⟨f, rfl⟩ : ∃ f, fuel = f + 1 := ⟨fuel - 1, by omega⟩
  simp [scanAFuel, hm]

theorem scanAFuel_shape (fuel : Nat) (s : List Char) (pr : List Char × List Char)
    (h : pr ∈ scanAFuel fuel s) : DateShape pr.1 ∧ PriceShape pr.2 := by
  induction fuel generalizing s with
  | zero => simp [scanAFuel] at h
  | succ fuel ih =>
    cases s with
    | nil => simp [scanAFuel] at h
    | cons c t =>
      cases hm : matchA (c :: t) with
      | some res =>
        obtain ⟨⟨d0, p0⟩, rest⟩ := res
        simp only [scanAFuel, hm] at h
        rcases List.mem_cons.mp h with rfl | h
        · exact matchA_shape (c :: t) d0 p0 rest hm
        · exact ih rest h
      | none =>
        simp only [scanAFuel, hm] at h
        exact ih t h

theorem fmtJoin_scanA (ps : List (List Char × List Char))
    (hs : ∀ pr ∈ ps, DateShape pr.1 ∧ PriceShape pr.2) :
    ∀ fuel, (fmtJoin ps).length ≤ fuel → scanAFuel fuel (fmtJoin ps) = ps := by
  induction ps with
  | nil =>
    intro fuel hf
    simpa [fmtJoin] using scanAFuel_nil fuel
  | cons pr ps ih =>
    intro fuel hf
    obtain ⟨d, p⟩ := pr
    obtain ⟨hd, hp⟩ := hs (d, p) (by simp)
    cases ps with
    | nil =>
      have hline : fmtJoin [(d, p)] = d ++ ':' :: ' ' :: '$' :: (p ++ []) := by
        simp [fmtJoin, fmtLine]
      have hm : matchA (fmtJoin [(d, p)]) = some ((d, p), []) := by
        rw [hline]
        exact matchA_line d p [] hd hp (fun c hc => by simp at hc)
      have hLne : fmtJoin [(d, p)] ≠ [] := by
        rw [hline]
        simp
      have h1 : 1 ≤ fuel := by
        have hpos : 0 < (fmtJoin [(d, p)]).length := List.length_pos.mpr hLne
        omega
      rw [scanAFuel_cons_of_match fuel _ [] (d, p) hLne hm h1, scanAFuel_nil]
    | cons q qs =>
      have hJ : fmtJoin ((d, p) :: q :: qs) = fmtLine (d, p) ++ '\n' :: fmtJoin (q :: qs) := by
        simp [fmtJoin]
      have hform : fmtJoin ((d, p) :: q :: qs)
          = d ++ ':' :: ' ' :: '$' :: (p ++ ('\n' :: fmtJoin (q :: qs))) := by
        rw [hJ]
        simp [fmtLine]
      have hm : matchA (fmtJoin ((d, p) :: q :: qs)) = some ((d, p), '\n' :: fmtJoin (q :: qs)) := by
        rw [hform]
        refine matchA_line d p ('\n' :: fmtJoin (q :: qs)) hd hp ?_
        intro c hc
        simp only [List.head?_cons, Option.some.injEq] at hc
        subst hc
        exact ⟨by decide, by decide⟩
      have hlen : (fmtJoin (q :: qs)).length + 2 ≤ (fmtJoin ((d, p) :: q :: qs)).length := by
        rw [hJ]
        simp [fmtLine]
        omega
      have hJne : fmtJoin ((d, p) :: q :: qs) ≠ [] := by
        intro hcon
        rw [hcon] at hlen
        simp at hlen
      have h1 : 1 ≤ fuel := by omega
      rw [scanAFuel_cons_of_match fuel _ ('\n' :: fmtJoin (q :: qs)) (d, p) hJne hm h1]
      have hnd : matchA ('\n' :: fmtJoin (q :: qs)) = none := matchA_notdigit '\n' _ (by decide)
      rw [scanAFuel_step_none (fuel - 1) '\n' (fmtJoin (q :: qs)) hnd (by omega)]
      have hih := ih (fun pr hpr => hs pr (by simp [hpr])) (fuel - 1 - 1) (by omega)
      rw [hih]

theorem matchBAfterConn_shape (s d r : List Char) (h : matchBAfterConn s = some (d, r)) :
    DateShape d := by
  simp only [matchBAfterConn] at h
  split at h
  · exact absurd h (by simp)
  · split at h
    · exact absurd h (by simp)
    · rename_i dc s2 h1
      obtain ⟨y, m, dd, hdc, hylen, hy, hmlen, hm, hddlen, hdd⟩ := parseDateCore_shape _ dc s2 h1
      split at h
      · rename_i t s3 h2
        have htime := parseTime_shape s2 t s3 h2
        simp only [Option.some.injEq, Prod.mk.injEq] at h
        obtain ⟨hdate, hrest⟩ := h
        subst hdate
        exact ⟨y, m, dd, t, by simp [hdc, List.append_assoc], hylen, hy, hmlen, hm, hddlen, hdd,
          Or.inr htime⟩
      · simp only [Option.some.injEq, Prod.mk.injEq] at h
        obtain ⟨hdate, hrest⟩ := h
        subst hdate
        exact ⟨y, m, dd, [], by simp [hdc], hylen, hy, hmlen, hm, hddlen, hdd, Or.inl rfl⟩

theorem tryConns_shape (conns : List (List Char)) (s d r : List Char)
    (h : tryConns conns s = some (d, r)) : DateShape d := by
  induction conns with
  | nil => simp [tryConns] at h
  | cons l ls ih =>
    simp only [tryConns] at h
    split at h
    · split at h
      · rename_i r0 heq
        rw [h] at heq
        exact matchBAfterConn_shape _ d r heq
      · exact ih h
    · exact ih h

theorem matchB_shape (conns : List (List Char)) (s : List Char) (p d r : List Char)
    (h : matchB conns s = some ((p, d), r)) : PriceShape p ∧ DateShape d := by
  simp only [matchB] at h
  split at h
  · exact absurd h (by simp)
  · rename_i p0 s1 hpn
    split at h
    · exact absurd h (by simp)
    · split at h
      · exact absurd h (by simp)
      · rename_i d0 rest0 htc
        simp only [Option.some.injEq, Prod.mk.injEq] at h
        obtain ⟨⟨hpe, hde⟩, hre⟩ := h
        subst hpe; subst hde
        exact ⟨parseNumber_shape _ p0 s1 hpn, tryConns_shape conns _ d0 rest0 htc⟩

theorem scanBFuel_nil (conns : List (List Char)) (fuel : Nat) : scanBFuel conns fuel [] = [] := by
  cases fuel <;> rfl

theorem scanBFuel_shape (conns : List (List Char)) (fuel : Nat) (s : List Char)
    (pr : List Char × List Char) (h : pr ∈ scanBFuel conns fuel s) :
    PriceShape pr.1 ∧ DateShape pr.2 := by
  induction fuel generalizing s with
  | zero => simp [scanBFuel] at h
  | succ fuel ih =>
    cases s with
    | nil => simp [scanBFuel] at h
    | cons c t =>
      cases hm : matchB conns (c :: t) with
      | some res =>
        obtain ⟨⟨p0, d0⟩, rest⟩ := res
        simp only [scanBFuel, hm] at h
        rcases List.mem_cons.mp h with rfl | h
        · exact matchB_shape conns (c :: t) p0 d0 rest hm
        · exact ih rest h
      | none =>
        simp only [scanBFuel, hm] at h
        exact ih t h

theorem extractC_mem_shape (s : List Char) (pr : List Char × List Char)
    (h : pr ∈ extractC s) : DateShape pr.1 ∧ PriceShape pr.2 := by
  simp only [extractC] at h
  split at h
  · simp only [List.mem_map] at h
    obtain ⟨q, hq, rfl⟩ := h
    have hsh := scanBFuel_shape connsFull s.length s q hq
    exact ⟨hsh.2, hsh.1⟩
  · exact scanAFuel_shape s.length s pr h

/-! ## Claim theorems: chart extraction -/

/-- C8: chart extraction is idempotent on its own output — formatting every
extracted `(date, price)` pair as a `"<date>: $<price>"` line, joining the
lines with newlines, and re-extracting yields the same pair list. -/
theorem c8_chart_extraction_idempotent (s : List Char) :
    extractC (fmtJoin (extractC s)) = extractC s := by
  cases hps : extractC s with
  | nil => decide
  | cons pr ps =>
    have hsh : ∀ q ∈ pr :: ps, DateShape q.1 ∧ PriceShape q.2 := by
      intro q hq
      exact extractC_mem_shape s q (by rw [hps]; exact hq)
    have hfind : findA (fmtJoin (pr :: ps)) = pr :: ps :=
      fmtJoin_scanA (pr :: ps) hsh (fmtJoin (pr :: ps)).length le_rfl
    simp [extractC, hfind]

/-- C7: pattern B is attempted only when pattern A yields no matches, its
`(price, date)` captures are swapped to `(date, price)`, and on
`"$230.50 on 2025-01-20"` extraction yields exactly `(2025-01-20, 230.50)`
(pattern A yields nothing there). -/
theorem c7_pattern_b_fallback :
    (∀ s : List Char, findA s ≠ [] → extractC s = findA s) ∧
    (∀ s : List Char, findA s = [] → extractC s = (findB s).map (fun pr => (pr.2, pr.1))) ∧
    parseAndPlotMatches "$230.50 on 2025-01-20" = [("2025-01-20", "230.50")] ∧
    findA "$230.50 on 2025-01-20".data = [] := by
  refine ⟨?_, ?_, by decide, by decide⟩
  · intro s h
    cases hfa : findA s with
    | nil => exact absurd hfa h
    | cons q qs => simp [extractC, hfa]
  · intro s h
    simp [extractC, h]

/-- Witness for C7 at concrete inputs: a pattern-A text keeps its A matches,
and the pattern-B example produces the swapped B matches. -/
theorem c7_pattern_b_fallback_witness :
    extractC "2025-01-20: $5".data = findA "2025-01-20: $5".data ∧
    extractC "$230.50 on 2025-01-20".data
      = (findB "$230.50 on 2025-01-20".data).map (fun pr => (pr.2, pr.1)) :=
  ⟨c7_pattern_b_fallback.1 _ (by decide), c7_pattern_b_fallback.2.1 _ (by decide)⟩

/-- C10: the `parse_and_plot` extraction and the metrics re-extraction are
not equivalent — on `"$230.50 as of 2025-01-20"` the former detects one pair
via pattern B (its alternation has `as of`; pattern A yields nothing), while
the metrics re-parse (alternation `on|for|at` only) yields zero pairs. -/
theorem c10_metrics_reparse_divergence :
    parseAndPlotMatches "$230.50 as of 2025-01-20" = [("2025-01-20", "230.50")] ∧
    findA "$230.50 as of 2025-01-20".data = [] ∧
    metricsTicks "$230.50 as of 2025-01-20" = [] ∧
    parseAndPlotMatches "$230.50 as of 2025-01-20"
      ≠ metricsTicks "$230.50 as of 2025-01-20" :=
  ⟨by decide, by decide, by decide, by decide⟩

/-! ## Claim theorems: chat gateway -/

/-- C5: whenever the routing agent raises with message `msg`, the gateway
replies with HTTP status 500 and `msg` as the `detail` field. -/
theorem c5_gateway_500_on_agent_exception (msg : String) :
    chat_endpoint (.error msg) = .httpError 500 msg := rfl

/-- C4: `tool_used` comes from the first recorded intermediate step whenever
the trace is non-empty; only on an empty trace does the gateway fall back to
substring-sniffing `str(result)` for the two tool names (real-time first);
when neither path identifies a tool, `tool_used` is null. -/
theorem c4_tool_used_derivation (r : AgentResult) :
    (∀ t ts, r.intermediateSteps = t :: ts →
      chat_endpoint (.ok r) = .ok (r.output.getD "") (some t)) ∧
    (r.intermediateSteps = [] →
      containsSub "fetch_realtime_data".data r.stringified.data = true →
      chat_endpoint (.ok r) = .ok (r.output.getD "") (some "fetch_realtime_data")) ∧
    (r.intermediateSteps = [] →
      containsSub "fetch_realtime_data".data r.stringified.data = false →
      containsSub "fetch_daily_data".data r.stringified.data = true →
      chat_endpoint (.ok r) = .ok (r.output.getD "") (some "fetch_daily_data")) ∧
    (r.intermediateSteps = [] →
      containsSub "fetch_realtime_data".data r.stringified.data = false →
      containsSub "fetch_daily_data".data r.stringified.data = false →
      chat_endpoint (.ok r) = .ok (r.output.getD "") none) := by
  refine ⟨?_, ?_, ?_, ?_⟩
  · intro t ts hsteps
    simp [chat_endpoint, hsteps]
  · intro hsteps hrt
    simp [chat_endpoint, hsteps, hrt]
  · intro hsteps hrt hdd
    simp [chat_endpoint, hsteps, hrt, hdd]
  · intro hsteps hrt hdd
    simp [chat_endpoint, hsteps, hrt, hdd]

/-- Witness for C4: all four derivation paths at concrete agent results. -/
theorem c4_tool_used_derivation_witness :
    chat_endpoint (.ok ⟨some "a", ["fetch_daily_data"], "z"⟩)
      = .ok "a" (some "fetch_daily_data") ∧
    chat_endpoint (.ok ⟨some "a", [], "xx fetch_realtime_data yy"⟩)
      = .ok "a" (some "fetch_realtime_data") ∧
    chat_endpoint (.ok ⟨some "a", [], "xx fetch_daily_data yy"⟩)
      = .ok "a" (some "fetch_daily_data") ∧
    chat_endpoint (.ok ⟨some "a", [], "no tool mentioned"⟩) = .ok "a" none :=
  ⟨(c4_tool_used_derivation _).1 "fetch_daily_data" [] rfl,
   (c4_tool_used_derivation _).2.1 rfl (by decide),
   (c4_tool_used_derivation _).2.2.1 rfl (by decide) (by decide),
   (c4_tool_used_derivation _).2.2.2 rfl (by decide) (by decide)⟩

/-! ## Claim theorems: data tool adapters -/

theorem startsWithL_append_self (n r : List Char) : startsWithL n (n ++ r) = true := by
  induction n with
  | nil => rfl
  | cons c t ih => simp [startsWithL, ih]

theorem containsSub_append_self (n r : List Char) : containsSub n (n ++ r) = true := by
  cases hn : n ++ r with
  | nil =>
    have hnil : n = [] := by
      cases n with
      | nil => rfl
      | cons c t => simp at hn
    subst hnil
    rfl
  | cons c t =>
    simp only [containsSub]
    rw [← hn, startsWithL_append_self]
    simp

theorem string_data_append (a b : String) : (a ++ b).data = a.data ++ b.data := rfl

theorem containsSub_error_prefixed (pre msg : String)
    (hpre : ∃ t, pre.data = "Error".data ++ t) :
    containsSub "Error".data (pre ++ msg).data = true := by
  obtain ⟨t, ht⟩ := hpre
  rw [string_data_append, ht, List.append_assoc]
  exact containsSub_append_self _ _

/-- C2: neither adapter lets a transport or HTTP failure escape — for every
outcome the model returns a string (the functions are total), and on a
transport failure (unreachable endpoint), an HTTP error status, or an
unparseable body, the returned string contains `"Error"`. -/
theorem c2_adapters_never_raise :
    (∀ (msg ticker sd ed : String) (tid : Option String),
      containsSub "Error".data
        (fetch_daily_data (fun _ => .netError msg) ticker sd ed tid).1.data = true) ∧
    (∀ (msg ticker : String) (key itv : Option String),
      containsSub "Error".data
        (fetch_realtime_data (fun _ => .netError msg) key ticker itv).1.data = true) ∧
    (∀ (k : Nat) (body : Json) (ticker sd ed : String) (tid : Option String),
      containsSub "Error".data
        (fetch_daily_data (fun _ => .ok (400 + k) body) ticker sd ed tid).1.data = true) ∧
    (∀ (k : Nat) (body : Json) (ticker : String) (key itv : Option String),
      containsSub "Error".data
        (fetch_realtime_data (fun _ => .ok (400 + k) body) key ticker itv).1.data = true) ∧
    (∀ (status : Nat) (msg ticker sd ed : String) (tid : Option String),
      containsSub "Error".data
        (fetch_daily_data (fun _ => .badBody status msg) ticker sd ed tid).1.data = true) ∧
    (∀ (status : Nat) (msg ticker : String) (key itv : Option String),
      containsSub "Error".data
        (fetch_realtime_data (fun _ => .badBody status msg) key ticker itv).1.data = true) := by
  have hpreD : ∃ t, ("Error fetching daily data: " : String).data = "Error".data ++ t :=
    ⟨" fetching daily data: ".data, by decide⟩
  have hpreR : ∃ t, ("Error fetching real-time data: " : String).data = "Error".data ++ t :=
    ⟨" fetching real-time data: ".data, by decide⟩
  refine ⟨?_, ?_, ?_, ?_, ?_, ?_⟩
  · intro msg ticker sd ed tid
    exact containsSub_error_prefixed _ msg hpreD
  · intro msg ticker key itv
    exact containsSub_error_prefixed _ msg hpreR
  · intro k body ticker sd ed tid
    have hres : (fetch_daily_data (fun _ => .ok (400 + k) body) ticker sd ed tid).1
        = "Error fetching daily data: "
          ++ httpErrorText (400 + k)
            ("http://localhost:8082/api/query/" ++ tid.getD "DEFAULT" ++ "/DAILY") := by
      simp [fetch_daily_data, Nat.le_add_right]
    rw [hres]
    exact containsSub_error_prefixed _ _ hpreD
  · intro k body ticker key itv
    have hres : (fetch_realtime_data (fun _ => .ok (400 + k) body) key ticker itv).1
        = "Error fetching real-time data: "
          ++ httpErrorText (400 + k)
            ("https://www.alphavantage.co/query?function=TIME_SERIES_INTRADAY&symbol=" ++ ticker
              ++ "&interval=" ++ itv.getD "5min" ++ "&apikey=" ++ key.getD "demo") := by
      simp [fetch_realtime_data, Nat.le_add_right]
    rw [hres]
    exact containsSub_error_prefixed _ _ hpreR
  · intro status msg ticker sd ed tid
    by_cases h : 400 ≤ status
    · have hres : (fetch_daily_data (fun _ => .badBody status msg) ticker sd ed tid).1
          = "Error fetching daily data: "
            ++ httpErrorText status
              ("http://localhost:8082/api/query/" ++ tid.getD "DEFAULT" ++ "/DAILY") := by
        simp [fetch_daily_data, h]
      rw [hres]
      exact containsSub_error_prefixed _ _ hpreD
    · have hres : (fetch_daily_data (fun _ => .badBody status msg) ticker sd ed tid).1
          = "Error fetching daily data: " ++ msg := by
        simp [fetch_daily_data, h]
      rw [hres]
      exact containsSub_error_prefixed _ _ hpreD
  · intro status msg ticker key itv
    by_cases h : 400 ≤ status
    · have hres : (fetch_realtime_data (fun _ => .badBody status msg) key ticker itv).1
          = "Error fetching real-time data: "
            ++ httpErrorText status
              ("https://www.alphavantage.co/query?function=TIME_SERIES_INTRADAY&symbol=" ++ ticker
                ++ "&interval=" ++ itv.getD "5min" ++ "&apikey=" ++ key.getD "demo") := by
        simp [fetch_realtime_data, h]
      rw [hres]
      exact containsSub_error_prefixed _ _ hpreR
    · have hres : (fetch_realtime_data (fun _ => .badBody status msg) key ticker itv).1
          = "Error fetching real-time data: " ++ msg := by
        simp [fetch_realtime_data, h]
      rw [hres]
      exact containsSub_error_prefixed _ _ hpreR

/-- C9: `fetch_daily_data` issues exactly one POST, to the tenant- and
periodicity-scoped path `/api/query/<tenant_id>/DAILY` (tenant defaulting to
`"DEFAULT"`), with the JSON body `{instrument_id, start_date, end_date}`,
and on an upstream success status returns the upstream JSON body
re-serialized as a string. -/
theorem c9_daily_request_shape (net : HttpRequest → HttpResult) (ticker sd ed : String)
    (tid : Option String) :
    (fetch_daily_data net ticker sd ed tid).2 =
      [⟨"POST", "http://localhost:8082/api/query/" ++ tid.getD "DEFAULT" ++ "/DAILY",
        some (Json.jobj [("instrument_id", Json.jstr ticker), ("start_date", Json.jstr sd),
          ("end_date", Json.jstr ed)])⟩] ∧
    fetch_daily_data net ticker sd ed none = fetch_daily_data net ticker sd ed (some "DEFAULT") ∧
    (∀ status body,
      net ⟨"POST", "http://localhost:8082/api/query/" ++ tid.getD "DEFAULT" ++ "/DAILY",
        some (Json.jobj [("instrument_id", Json.jstr ticker), ("start_date", Json.jstr sd),
          ("end_date", Json.jstr ed)])⟩ = HttpResult.ok status body →
      status < 400 →
      (fetch_daily_data net ticker sd ed tid).1 = dumpsJ body) := by
  refine ⟨rfl, rfl, ?_⟩
  intro status body hnet hlt
  simp only [fetch_daily_data]
  rw [hnet]
  simp only [Nat.not_le.mpr hlt, if_false]

/-- Witness for C9: a successful upstream reply is re-serialized. -/
theorem c9_daily_request_shape_witness :
    (fetch_daily_data (fun _ => .ok 200 (Json.jstr "payload"))
      "IBM" "2025-01-01" "2025-01-31" (some "T1")).1 = dumpsJ (Json.jstr "payload") :=
  (c9_daily_request_shape (fun _ => .ok 200 (Json.jstr "payload"))
    "IBM" "2025-01-01" "2025-01-31" (some "T1")).2.2 200 (Json.jstr "payload") rfl (by omega)

theorem closeLines_map (pts : List (String × Json))
    (hc : ∀ pr ∈ pts, ∃ fields c, pr.2 = Json.jobj fields ∧ jlookup fields "4. close" = some c) :
    closeLines pts = some (pts.map (fun pr => pr.1 ++ ": $" ++ closeOf pr.2)) := by
  induction pts with
  | nil => rfl
  | cons pr rest ih =>
    obtain ⟨ts, v⟩ := pr
    obtain ⟨fields, c, hf, hcl⟩ := hc (ts, v) (by simp)
    simp only at hf
    subst hf
    have ihh := ih (fun q hq => hc q (by simp [hq]))
    simp [closeLines, hcl, ihh, closeOf]

/-- C3: when the upstream payload is an object containing the key
`"Time Series (<interval>)"` whose points carry a `"4. close"` field,
`fetch_realtime_data` returns the header plus one `"<timestamp>: $<close>"`
line per point of the first 10 (the most recent 10 under Alpha Vantage's
newest-first ordering), newline-joined; when the key is absent it returns
the diagnostic string surfacing the upstream's `Note`, else its
`Error Message`, else `"Unknown error"`. -/
theorem c3_realtime_series_formatting (net : HttpRequest → HttpResult) (apiKeyEnv : Option String)
    (ticker : String) (interval : Option String) (status : Nat) (kvs : List (String × Json))
    (hstat : status < 400)
    (hnet : net ⟨"GET", "https://www.alphavantage.co/query?function=TIME_SERIES_INTRADAY&symbol="
        ++ ticker ++ "&interval=" ++ interval.getD "5min" ++ "&apikey=" ++ apiKeyEnv.getD "demo",
        none⟩ = HttpResult.ok status (Json.jobj kvs)) :
    (∀ items : List (String × Json),
      jlookup kvs ("Time Series (" ++ interval.getD "5min" ++ ")") = some (Json.jobj items) →
      (∀ pr ∈ items.take 10, ∃ fields c, pr.2 = Json.jobj fields ∧
        jlookup fields "4. close" = some c) →
      (fetch_realtime_data net apiKeyEnv ticker interval).1 =
        String.intercalate "\n"
          (("Real-time data for " ++ ticker ++ " (" ++ interval.getD "5min" ++ " intervals):")
            :: (items.take 10).map (fun pr => pr.1 ++ ": $" ++ closeOf pr.2))) ∧
    (jlookup kvs ("Time Series (" ++ interval.getD "5min" ++ ")") = none →
      (fetch_realtime_data net apiKeyEnv ticker interval).1 =
        "Could not find intraday data for " ++ ticker ++ ". Alpha Vantage Note: "
          ++ noteOrErrorMsg kvs) ∧
    (∀ (kvs2 : List (String × Json)) (v : String),
      jlookup kvs2 "Note" = some (Json.jstr v) → noteOrErrorMsg kvs2 = v) ∧
    (∀ (kvs2 : List (String × Json)) (v : String),
      jlookup kvs2 "Note" = none → jlookup kvs2 "Error Message" = some (Json.jstr v) →
      noteOrErrorMsg kvs2 = v) := by
  have hnle : ¬ (400 ≤ status) := by omega
  refine ⟨?_, ?_, ?_, ?_⟩
  · intro items hk hcl
    have hlines := closeLines_map (items.take 10) hcl
    simp only [fetch_realtime_data]
    rw [hnet]
    simp [hnle, hk, hlines]
  · intro hk
    simp only [fetch_realtime_data]
    rw [hnet]
    simp [hnle, hk]
  · intro kvs2 v hn
    simp [noteOrErrorMsg, hn, pyStr]
  · intro kvs2 v hn he
    simp [noteOrErrorMsg, hn, he, pyStr]

/-- Witness for C3: a one-point series is formatted under the header, and a
`Note`-only payload produces the diagnostic. -/
theorem c3_realtime_series_formatting_witness :
    (fetch_realtime_data (fun _ => .ok 200 (Json.jobj [("Time Series (5min)",
        Json.jobj [("2025-01-20 10:00:00", Json.jobj [("4. close", Json.jstr "230.50")])])]))
      none "IBM" none).1
      = "Real-time data for IBM (5min intervals):\n2025-01-20 10:00:00: $230.50" ∧
    (fetch_realtime_data (fun _ => .ok 200 (Json.jobj [("Note", Json.jstr "rate limited")]))
      none "IBM" none).1
      = "Could not find intraday data for IBM. Alpha Vantage Note: rate limited" := by
  constructor
  · have h := (c3_realtime_series_formatting
      (fun _ => .ok 200 (Json.jobj [("Time Series (5min)",
        Json.jobj [("2025-01-20 10:00:00", Json.jobj [("4. close", Json.jstr "230.50")])])]))
      none "IBM" none 200
      [("Time Series (5min)",
        Json.jobj [("2025-01-20 10:00:00", Json.jobj [("4. close", Json.jstr "230.50")])])]
      (by omega) rfl).1
      [("2025-01-20 10:00:00", Json.jobj [("4. close", Json.jstr "230.50")])]
      rfl
      (by
        intro pr hpr
        rw [show ([("2025-01-20 10:00:00",
            Json.jobj [("4. close", Json.jstr "230.50")])].take 10)
          = [("2025-01-20 10:00:00", Json.jobj [("4. close", Json.jstr "230.50")])] from rfl,
          List.mem_singleton] at hpr
        subst hpr
        exact ⟨[("4. close", Json.jstr "230.50")], Json.jstr "230.50", rfl, rfl⟩)
    exact h.trans (by decide)
  · have h := (c3_realtime_series_formatting
      (fun _ => .ok 200 (Json.jobj [("Note", Json.jstr "rate limited")]))
      none "IBM" none 200 [("Note", Json.jstr "rate limited")]
      (by omega) rfl).2.1 rfl
    exact h.trans (by decide)

theorem priceVal_230_50 : priceVal "230.50".data = 230.5 := by
  have h : spanP Char.isDigit "230.50".data = ("230".data, '.' :: "50".data) := by decide
  have h2 : spanP Char.isDigit "50".data = ("50".data, ([] : List Char)) := by decide
  have h3 : digitsVal "230".data = 230 := by decide
  have h4 : digitsVal "50".data = 50 := by decide
  simp only [priceVal, h, h2, h3, h4]
  norm_num

theorem priceVal_233_00 : priceVal "233.00".data = 233 := by
  have h : spanP Char.isDigit "233.00".data = ("233".data, '.' :: "00".data) := by decide
  have h2 : spanP Char.isDigit "00".data = ("00".data, ([] : List Char)) := by decide
  have h3 : digitsVal "233".data = 233 := by decide
  have h4 : digitsVal "00".data = 0 := by decide
  simp only [priceVal, h, h2, h3, h4]
  norm_num

/-- C6: on the two-line answer text (with an actual newline, and with the
spec's literal backslash-n characters) extraction yields exactly the two
points, sorted ascending by date string, with latest price 233.00,
first price 230.50 and high 233.00. -/
theorem c6_two_point_example :
    (chartRows "2025-01-20: $230.50\n2025-01-21: $233.00"
        = [("2025-01-20", 230.5), ("2025-01-21", 233)] ∧
      datesSortedAsc
        (sortPairs (parseAndPlotMatches "2025-01-20: $230.50\n2025-01-21: $233.00")) = true ∧
      latestPrice (chartRows "2025-01-20: $230.50\n2025-01-21: $233.00") = 233 ∧
      firstPrice (chartRows "2025-01-20: $230.50\n2025-01-21: $233.00") = 230.5 ∧
      highPrice (chartRows "2025-01-20: $230.50\n2025-01-21: $233.00") = 233) ∧
    (chartRows "2025-01-20: $230.50\\n2025-01-21: $233.00"
        = [("2025-01-20", 230.5), ("2025-01-21", 233)] ∧
      datesSortedAsc
        (sortPairs (parseAndPlotMatches "2025-01-20: $230.50\\n2025-01-21: $233.00")) = true ∧
      latestPrice (chartRows "2025-01-20: $230.50\\n2025-01-21: $233.00") = 233 ∧
      firstPrice (chartRows "2025-01-20: $230.50\\n2025-01-21: $233.00") = 230.5 ∧
      highPrice (chartRows "2025-01-20: $230.50\\n2025-01-21: $233.00") = 233) := by
  have hpairs1 : sortPairs (parseAndPlotMatches "2025-01-20: $230.50\n2025-01-21: $233.00")
      = [("2025-01-20", "230.50"), ("2025-01-21", "233.00")] := by decide
  have hpairs2 : sortPairs (parseAndPlotMatches "2025-01-20: $230.50\\n2025-01-21: $233.00")
      = [("2025-01-20", "230.50"), ("2025-01-21", "233.00")] := by decide
  have hrows1 : chartRows "2025-01-20: $230.50\n2025-01-21: $233.00"
      = [("2025-01-20", 230.5), ("2025-01-21", 233)] := by
    unfold chartRows
    rw [hpairs1]
    simp only [List.map_cons, List.map_nil]
    rw [priceVal_230_50, priceVal_233_00]
  have hrows2 : chartRows "2025-01-20: $230.50\\n2025-01-21: $233.00"
      = [("2025-01-20", 230.5), ("2025-01-21", 233)] := by
    unfold chartRows
    rw [hpairs2]
    simp only [List.map_cons, List.map_nil]
    rw [priceVal_230_50, priceVal_233_00]
  refine ⟨⟨hrows1, by rw [hpairs1]; decide, ?_, ?_, ?_⟩,
    ⟨hrows2, by rw [hpairs2]; decide, ?_, ?_, ?_⟩⟩
  · rw [hrows1]; norm_num [latestPrice, List.getLast?]
  · rw [hrows1]; norm_num [firstPrice, latestPrice, List.getLast?]
  · rw [hrows1]; norm_num [highPrice]
  · rw [hrows2]; norm_num [latestPrice, List.getLast?]
  · rw [hrows2]; norm_num [firstPrice, latestPrice, List.getLast?]
  · rw [hrows2]; norm_num [highPrice]
